import Mathlib

/-!
Shallow embedding of the `voltage_modbus` Rust crate (byte-order codecs,
PDU construction, response parsing, chunked batch reads and command
batching), together with theorems settling the specification claims.

Machine integers are modelled as `Nat` (unsigned) and `Int` (signed), with
explicit `% 2^w` where the Rust code truncates.  Register arrays (`[u16; 2]`,
`[u16; 4]`, `&[u16]`) are modelled as `List Nat`; indexing `regs[i]` becomes
`regs.getD i 0` (the Rust type system guarantees the index is in bounds, so
the default is never observed on well-formed inputs).  Fallible functions
return `Except ModbusError`.
-/

namespace VoltageModbus

/-- `ByteOrder` enum from `src/bytes.rs`. -/
inductive ByteOrder where
  | BigEndian
  | LittleEndian
  | BigEndianSwap
  | LittleEndianSwap
  | BigEndian16
  | LittleEndian16
deriving DecidableEq, Repr

/-- High byte of `u16::to_be_bytes` (`(r >> 8) as u8`). -/
def u16hi (r : Nat) : Nat := r / 256 % 256

/-- Low byte of `u16::to_be_bytes` (`r as u8`). -/
def u16lo (r : Nat) : Nat := r % 256

/-- `u16::from_be_bytes([a, b])`. -/
def u16be (a b : Nat) : Nat := a * 256 + b

/-- `regs_to_bytes_4` from `src/bytes.rs` (lines 186-195): convert 2 u16
registers to 4 bytes with the specified byte order. -/
def regs_to_bytes_4 (regs : List Nat) (order : ByteOrder) : List Nat :=
  let h0hi := u16hi (regs.getD 0 0)
  let h0lo := u16lo (regs.getD 0 0)
  let h1hi := u16hi (regs.getD 1 0)
  let h1lo := u16lo (regs.getD 1 0)
  match order with
  | .BigEndian | .BigEndian16 => [h0hi, h0lo, h1hi, h1lo]          -- ABCD
  | .LittleEndian | .LittleEndian16 => [h1lo, h1hi, h0lo, h0hi]    -- DCBA
  | .BigEndianSwap => [h1hi, h1lo, h0hi, h0lo]                     -- CDAB
  | .LittleEndianSwap => [h0lo, h0hi, h1lo, h1hi]                  -- BADC

/-- `regs_to_bytes_8` from `src/bytes.rs` (lines 209-231): convert 4 u16
registers to 8 bytes with the specified byte order. -/
def regs_to_bytes_8 (regs : List Nat) (order : ByteOrder) : List Nat :=
  let h0hi := u16hi (regs.getD 0 0)
  let h0lo := u16lo (regs.getD 0 0)
  let h1hi := u16hi (regs.getD 1 0)
  let h1lo := u16lo (regs.getD 1 0)
  let h2hi := u16hi (regs.getD 2 0)
  let h2lo := u16lo (regs.getD 2 0)
  let h3hi := u16hi (regs.getD 3 0)
  let h3lo := u16lo (regs.getD 3 0)
  match order with
  | .BigEndian | .BigEndian16 =>
      [h0hi, h0lo, h1hi, h1lo, h2hi, h2lo, h3hi, h3lo]             -- ABCDEFGH
  | .LittleEndian | .LittleEndian16 =>
      [h3lo, h3hi, h2lo, h2hi, h1lo, h1hi, h0lo, h0hi]             -- HGFEDCBA
  | .BigEndianSwap =>
      [h3hi, h3lo, h2hi, h2lo, h1hi, h1lo, h0hi, h0lo]             -- GHEFCDAB
  | .LittleEndianSwap =>
      [h0lo, h0hi, h1lo, h1hi, h2lo, h2hi, h3lo, h3hi]             -- BADCFEHG

/-- `reg_to_bytes_2` from `src/bytes.rs` (lines 239-245): convert a single
u16 register to 2 bytes. -/
def reg_to_bytes_2 (reg : Nat) (order : ByteOrder) : List Nat :=
  match order with
  | .BigEndian | .BigEndian16 => [u16hi reg, u16lo reg]
  | .LittleEndian | .LittleEndian16 => [u16lo reg, u16hi reg]
  | _ => [u16hi reg, u16lo reg]

/-- `reg_to_u16` from `src/bytes.rs` (lines 249-254): `u16::swap_bytes` only
for `LittleEndian16`. -/
def reg_to_u16 (reg : Nat) (order : ByteOrder) : Nat :=
  match order with
  | .LittleEndian16 => reg % 256 * 256 + reg / 256 % 256
  | _ => reg

/-- Reinterpret an unsigned value of width `w` bits as two's-complement. -/
def toSigned (w : Nat) (n : Nat) : Int :=
  if n < 2 ^ (w - 1) then (n : Int) else (n : Int) - 2 ^ w

/-- `reg_to_i16` from `src/bytes.rs` (lines 258-260): `reg_to_u16 … as i16`. -/
def reg_to_i16 (reg : Nat) (order : ByteOrder) : Int :=
  toSigned 16 (reg_to_u16 reg order)

/-- Big-endian recombination of a byte list (`uN::from_be_bytes`). -/
def beBytesToNat (bytes : List Nat) : Nat :=
  bytes.foldl (fun acc b => acc * 256 + b) 0

/-- `regs_to_u32` from `src/bytes.rs` (lines 278-281). -/
def regs_to_u32 (regs : List Nat) (order : ByteOrder) : Nat :=
  beBytesToNat (regs_to_bytes_4 regs order)

/-- `regs_to_i32` from `src/bytes.rs` (lines 285-288). -/
def regs_to_i32 (regs : List Nat) (order : ByteOrder) : Int :=
  toSigned 32 (beBytesToNat (regs_to_bytes_4 regs order))

/-- `regs_to_u64` from `src/bytes.rs` (lines 292-295). -/
def regs_to_u64 (regs : List Nat) (order : ByteOrder) : Nat :=
  beBytesToNat (regs_to_bytes_8 regs order)

/-- `regs_to_i64` from `src/bytes.rs` (lines 299-302). -/
def regs_to_i64 (regs : List Nat) (order : ByteOrder) : Int :=
  toSigned 64 (beBytesToNat (regs_to_bytes_8 regs order))

/-- `u32::to_be_bytes`. -/
def u32beBytes (v : Nat) : List Nat :=
  [v / 16777216 % 256, v / 65536 % 256, v / 256 % 256, v % 256]

/-- `u64::to_be_bytes`. -/
def u64beBytes (v : Nat) : List Nat :=
  [v / 72057594037927936 % 256, v / 281474976710656 % 256,
   v / 1099511627776 % 256, v / 4294967296 % 256,
   v / 16777216 % 256, v / 65536 % 256, v / 256 % 256, v % 256]

/-- `bytes_4_to_regs` from `src/bytes.rs` (lines 350-369): convert 4 bytes
(big-endian value) to 2 u16 registers with the specified byte order. -/
def bytes_4_to_regs (bytes : List Nat) (order : ByteOrder) : List Nat :=
  let b := fun i => bytes.getD i 0
  match order with
  | .BigEndian | .BigEndian16 => [u16be (b 0) (b 1), u16be (b 2) (b 3)]
  | .LittleEndian | .LittleEndian16 => [u16be (b 3) (b 2), u16be (b 1) (b 0)]
  | .BigEndianSwap => [u16be (b 2) (b 3), u16be (b 0) (b 1)]
  | .LittleEndianSwap => [u16be (b 1) (b 0), u16be (b 3) (b 2)]

/-- `bytes_8_to_regs` from `src/bytes.rs` (lines 373-400). -/
def bytes_8_to_regs (bytes : List Nat) (order : ByteOrder) : List Nat :=
  let b := fun i => bytes.getD i 0
  match order with
  | .BigEndian | .BigEndian16 =>
      [u16be (b 0) (b 1), u16be (b 2) (b 3), u16be (b 4) (b 5), u16be (b 6) (b 7)]
  | .LittleEndian | .LittleEndian16 =>
      [u16be (b 7) (b 6), u16be (b 5) (b 4), u16be (b 3) (b 2), u16be (b 1) (b 0)]
  | .BigEndianSwap =>
      [u16be (b 6) (b 7), u16be (b 4) (b 5), u16be (b 2) (b 3), u16be (b 0) (b 1)]
  | .LittleEndianSwap =>
      [u16be (b 1) (b 0), u16be (b 3) (b 2), u16be (b 5) (b 4), u16be (b 7) (b 6)]

/-- `u32_to_regs` from `src/bytes.rs` (lines 310-313). -/
def u32_to_regs (v : Nat) (order : ByteOrder) : List Nat :=
  bytes_4_to_regs (u32beBytes v) order

/-- `i32_to_regs` from `src/bytes.rs` (lines 317-319): `value as u32` is the
two's-complement reduction `v mod 2^32`. -/
def i32_to_regs (v : Int) (order : ByteOrder) : List Nat :=
  u32_to_regs (v % 4294967296).toNat order

/-- `u64_to_regs` from `src/bytes.rs` (lines 330-333). -/
def u64_to_regs (v : Nat) (order : ByteOrder) : List Nat :=
  bytes_8_to_regs (u64beBytes v) order

/-- `i64_to_regs` from `src/bytes.rs` (lines 337-339). -/
def i64_to_regs (v : Int) (order : ByteOrder) : List Nat :=
  u64_to_regs (v % 18446744073709551616).toNat order

/-- The `ModbusError` variants reached by the functions modelled here
(`src/error.rs`). -/
inductive ModbusError where
  | Protocol (message : String)
  | InvalidData (message : String)
  | InvalidFunction (code : Nat)
deriving DecidableEq, Repr

/-- `MAX_PDU_SIZE` from `src/constants.rs` (line 19). -/
def MAX_PDU_SIZE : Nat := 253

/-- `ModbusPdu::push` from `src/pdu.rs` (lines 70-79).  A `ModbusPdu` is
modelled by its observable byte content `data[..len]` as a `List Nat`; the
result pairs the Rust `ModbusResult<()>` (as `Option ModbusError`, `none` =
ok) with the post-state, so that the state left behind by a failing call is
visible. -/
def pduPush (p : List Nat) (b : Nat) : Option ModbusError × List Nat :=
  if p.length ≥ MAX_PDU_SIZE then (some (.Protocol "PDU buffer full"), p)
  else (none, p ++ [b])

/-- `ModbusPdu::push_u16` from `src/pdu.rs` (lines 83-87): pushes the high
byte, then (if that succeeded) the low byte, propagating the first error
exactly as the two `?` operators do. -/
def pduPushU16 (p : List Nat) (v : Nat) : Option ModbusError × List Nat :=
  match pduPush p (v / 256 % 256) with
  | (some e, p1) => (some e, p1)
  | (none, p1) => pduPush p1 (v % 256)

/-- `ModbusPdu::extend` from `src/pdu.rs` (lines 91-105). -/
def pduExtend (p : List Nat) (d : List Nat) : Option ModbusError × List Nat :=
  if p.length + d.length > MAX_PDU_SIZE then
    (some (.Protocol ("PDU would exceed max size: " ++ toString p.length
        ++ " + " ++ toString d.length ++ " > " ++ toString MAX_PDU_SIZE)), p)
  else (none, p ++ d)

/-- `PduBuilder` view of `push`: on failure the builder chain drops the PDU
(`?` returns early with only the error), so an `Except` result suffices. -/
def pushE (p : List Nat) (b : Nat) : Except ModbusError (List Nat) :=
  match pduPush p b with
  | (some e, _) => .error e
  | (none, p1) => .ok p1

/-- `PduBuilder` view of `push_u16`. -/
def pushU16E (p : List Nat) (v : Nat) : Except ModbusError (List Nat) :=
  match pduPushU16 p v with
  | (some e, _) => .error e
  | (none, p1) => .ok p1

/-- `PduBuilder` view of `extend`. -/
def extendE (p : List Nat) (d : List Nat) : Except ModbusError (List Nat) :=
  match pduExtend p d with
  | (some e, _) => .error e
  | (none, p1) => .ok p1

/-- Bit packing of `PduBuilder::build_write_multiple_coils` (src/pdu.rs
lines 318-324): byte `j` has bit `k` set iff coil `8*j + k` is true. -/
def packCoils (values : List Bool) : List Nat :=
  (List.range ((values.length + 7) / 8)).map (fun j =>
    (List.range 8).foldl
      (fun acc k => if values.getD (j * 8 + k) false then acc + 2 ^ k else acc) 0)

/-- Chain step for the builder functions: apply `f` if the previous step
succeeded, exactly as the Rust `?` operator. -/
def andThenE (r : Except ModbusError (List Nat))
    (f : List Nat → Except ModbusError (List Nat)) :
    Except ModbusError (List Nat) :=
  match r with
  | .error e => .error e
  | .ok p => f p

/-- `PduBuilder::build_write_multiple_coils` from `src/pdu.rs` (lines
314-333).  `values.len() as u16` and `byte_count as u8` truncate. -/
def buildWriteMultipleCoils (address : Nat) (values : List Bool) :
    Except ModbusError (List Nat) :=
  let quantity := values.length % 65536
  let byte_count := (values.length + 7) / 8
  let coil_bytes := packCoils values
  andThenE (pushE [] 0x0F) (fun p =>
  andThenE (pushU16E p address) (fun p =>
  andThenE (pushU16E p quantity) (fun p =>
  andThenE (pushE p (byte_count % 256)) (fun p =>
  extendE p coil_bytes))))

/-- Register-value loop of `PduBuilder::build_write_multiple_registers`
(src/pdu.rs lines 351-355): two `byte` pushes per value, big-endian. -/
def writeRegsFold (p : List Nat) : List Nat → Except ModbusError (List Nat)
  | [] => .ok p
  | v :: rest =>
      andThenE (pushE p (v / 256 % 256)) (fun p1 =>
      andThenE (pushE p1 (v % 256)) (fun p2 =>
      writeRegsFold p2 rest))

/-- `PduBuilder::build_write_multiple_registers` from `src/pdu.rs` (lines
340-358). -/
def buildWriteMultipleRegisters (address : Nat) (values : List Nat) :
    Except ModbusError (List Nat) :=
  let quantity := values.length % 65536
  let byte_count := values.length * 2 % 256
  andThenE (pushE [] 0x10) (fun p =>
  andThenE (pushU16E p address) (fun p =>
  andThenE (pushU16E p quantity) (fun p =>
  andThenE (pushE p byte_count) (fun p =>
  writeRegsFold p values))))

/-- `MAX_WRITE_COILS` from `src/constants.rs` (line 87). -/
def MAX_WRITE_COILS : Nat := 1968

/-- `MAX_WRITE_REGISTERS` from `src/constants.rs` (line 59). -/
def MAX_WRITE_REGISTERS : Nat := 123

/-- Coil-packing loop of `ModbusCodec::build_fc15_pdu` (src/codec.rs lines
424-438): accumulates `current_byte`/`bit_index`, pushing each completed
byte.  Returns the PDU together with the pending partial byte and index. -/
def fc15Loop (p : List Nat) (current_byte bit_index : Nat) :
    List Bool → Except ModbusError (List Nat × Nat × Nat)
  | [] => .ok (p, current_byte, bit_index)
  | value :: rest =>
      let cb := if value then current_byte + 2 ^ bit_index else current_byte
      let bi := bit_index + 1
      if bi = 8 then
        match pushE p cb with
        | .error e => .error e
        | .ok p1 => fc15Loop p1 0 0 rest
      else fc15Loop p cb bi rest

/-- `ModbusCodec::build_fc15_pdu` from `src/codec.rs` (lines 400-446). -/
def build_fc15_pdu (start_address : Nat) (values : List Bool) :
    Except ModbusError (List Nat) :=
  if values.isEmpty || values.length > MAX_WRITE_COILS then
    .error (.InvalidData "Invalid coil count for FC15")
  else
    andThenE (pushE [] 0x0F) (fun p =>
    andThenE (pushU16E p start_address) (fun p =>
    andThenE (pushU16E p (values.length % 65536)) (fun p =>
    andThenE (pushE p ((values.length + 7) / 8 % 256)) (fun p =>
    match fc15Loop p 0 0 values with
    | .error e => .error e
    | .ok s => if s.2.2 > 0 then pushE s.1 s.2.1 else .ok s.1))))

/-- Register loop of `ModbusCodec::build_fc16_pdu` (src/codec.rs lines
473-475): `pdu.push_u16(value)?` per value. -/
def fc16Loop (p : List Nat) : List Nat → Except ModbusError (List Nat)
  | [] => .ok p
  | v :: rest => andThenE (pushU16E p v) (fun p1 => fc16Loop p1 rest)

/-- `ModbusCodec::build_fc16_pdu` from `src/codec.rs` (lines 449-478). -/
def build_fc16_pdu (start_address : Nat) (values : List Nat) :
    Except ModbusError (List Nat) :=
  if values.isEmpty || values.length > MAX_WRITE_REGISTERS then
    .error (.InvalidData "Invalid register count for FC16")
  else
    andThenE (pushE [] 0x10) (fun p =>
    andThenE (pushU16E p start_address) (fun p =>
    andThenE (pushU16E p (values.length % 65536)) (fun p =>
    andThenE (pushE p (values.length * 2 % 256)) (fun p =>
    fc16Loop p values))))

/-- `parse_read_response` from `src/codec.rs` (lines 215-270).  The PDU is
its byte content; `expected_count` is accepted but (as in the source, where
only the dead `_expected_bytes` uses it) does not influence the result. -/
def parse_read_response (pdu : List Nat) (function_code : Nat)
    (_expected_count : Nat) : Except ModbusError (List Nat) :=
  if pdu.length < 2 then .ok []
  else
    let actual_fc := pdu.headD 0
    if actual_fc ≠ function_code then
      .error (.Protocol ("Function code mismatch: expected "
          ++ toString function_code ++ ", got " ++ toString actual_fc))
    else
      let byte_count := pdu.getD 1 0
      let available_bytes := pdu.length - 2
      let actual_byte_count := min byte_count available_bytes
      if function_code = 1 ∨ function_code = 2 then
        .ok ((pdu.drop 2).take actual_byte_count)
      else if function_code = 3 ∨ function_code = 4 then
        .ok ((List.range (actual_byte_count / 2)).filterMap (fun i =>
          let offset := 2 + i * 2
          if offset + 1 < pdu.length then
            some (pdu.getD offset 0 * 256 + pdu.getD (offset + 1) 0)
          else none))
      else
        .error (.Protocol ("Unsupported function code: "
            ++ toString function_code))

/-- ASCII lowering, modelling Rust `str::to_lowercase` on the ASCII type
tags used by this crate. -/
def asciiLower (c : Char) : Char :=
  if 'A' ≤ c ∧ c ≤ 'Z' then Char.ofNat (c.toNat + 32) else c

/-- `data_type.to_lowercase()` as used by the codec dispatch functions. -/
def toLowerStr (s : String) : String := String.mk (s.data.map asciiLower)

/-- `registers_for_type` from `src/codec.rs` (lines 515-525). -/
def registers_for_type (data_type : String) : Nat :=
  match toLowerStr data_type with
  | "bool" | "boolean" | "coil" => 0
  | "uint16" | "u16" | "word" | "int16" | "i16" | "short" => 1
  | "uint32" | "u32" | "dword" | "int32" | "i32" | "long" | "float32" | "f32"
  | "float" | "real" => 2
  | "uint64" | "u64" | "qword" | "int64" | "i64" | "longlong" | "float64"
  | "f64" | "double" | "lreal" => 4
  | _ => 1

/-- Range table of `clamp_to_data_type` from `src/codec.rs` (lines 183-200):
`none` means the value is returned unchanged (the `bool` arm and the unknown
wildcard arm both return early).  The numeric bounds are the exact rational
values of the Rust `f64` constants: `u64::MAX as f64` rounds to `2^64`,
`i64::MAX as f64` rounds to `2^63`, `f32::MIN/MAX as f64` are
`∓(2^128 - 2^104)`, and `f64::MIN/MAX` are `∓(2^1024 - 2^971)`; the
remaining bounds are exactly representable. -/
def clampBounds (data_type : String) : Option (Int × Int) :=
  match toLowerStr data_type with
  | "uint16" | "u16" => some (0, 65535)
  | "int16" | "i16" => some (-32768, 32767)
  | "uint32" | "u32" => some (0, 4294967295)
  | "int32" | "i32" => some (-2147483648, 2147483647)
  | "uint64" | "u64" => some (0, 18446744073709551616)
  | "int64" | "i64" => some (-9223372036854775808, 9223372036854775808)
  | "float32" | "f32" => some (-340282346638528859811704183484516925440, 340282346638528859811704183484516925440)
  | "float64" | "f64" =>
      some (-179769313486231570814527423731704356798070567525844996598917476803157260780028538760589558632766878171540458953514382464234321326889464182768467546703537516986049910576551282076245490090389328944075868508455133942304583236903222948165808559332123348274797826204144723168738177180919299881250404026184124858368,
        179769313486231570814527423731704356798070567525844996598917476803157260780028538760589558632766878171540458953514382464234321326889464182768467546703537516986049910576551282076245490090389328944075868508455133942304583236903222948165808559332123348274797826204144723168738177180919299881250404026184124858368)
  | "bool" | "boolean" | "coil" => none
  | _ => none

/-- `clamp_to_data_type` from `src/codec.rs` (lines 183-200).  The `f64`
value is modelled as a rational; `f64::clamp` against the exactly-modelled
bounds is order-exact, so the rational model is faithful for finite inputs. -/
def clamp_to_data_type (value : ℚ) (data_type : String) : ℚ :=
  match clampBounds data_type with
  | none => value
  | some (lo, hi) => min (max value (lo : ℚ)) hi

/-- The arm of the `encode_f64_as_type` dispatch that executes. -/
inductive EncodeKind where
  | boolK | u16K | i16K | u32K | i32K | f32K | u64K | i64K | f64K
deriving DecidableEq, Repr

/-- Type-tag dispatch of `encode_f64_as_type` from `src/codec.rs` (lines
334-373).  The numeric payload performs IEEE-754 floating-point clamping,
casting and register packing and is not modelled here; what the dispatch
determines — and all the error-handling claims depend on — is which arm of
the `match data_type.to_lowercase()` runs.  Every recognized arm in the
source returns `Ok(...)`; only the wildcard arm returns an error, namely
`InvalidData("Unsupported data type: ...")`, independent of the value and
byte order. -/
def encode_f64_as_type_kind (data_type : String) :
    Except ModbusError EncodeKind :=
  match toLowerStr data_type with
  | "bool" | "boolean" | "coil" => .ok .boolK
  | "uint16" | "u16" | "word" => .ok .u16K
  | "int16" | "i16" | "short" => .ok .i16K
  | "uint32" | "u32" | "dword" => .ok .u32K
  | "int32" | "i32" | "long" => .ok .i32K
  | "float32" | "f32" | "float" | "real" => .ok .f32K
  | "uint64" | "u64" | "qword" => .ok .u64K
  | "int64" | "i64" | "longlong" => .ok .i64K
  | "float64" | "f64" | "double" | "lreal" => .ok .f64K
  | _ => .error (.InvalidData ("Unsupported data type: " ++ data_type))

/-- The `while remaining > 0` loop of `ModbusClient::read_03_batch`
(src/client.rs lines 383-405).  `dev addr count` models the single-request
`self.read_03(slave_id, addr, count)` round trip for the fixed slave id
(the network transport is external to the crate).  `fuel` bounds the number
of iterations so the function is total: `none` models non-termination of
the Rust loop, which occurs exactly when `max_read_registers = 0` and
registers remain.  `u16::saturating_add` is `min (_ + _) 65535`. -/
def read03BatchLoop (dev : Nat → Nat → Except ModbusError (List Nat))
    (maxRegs : Nat) :
    Nat → Nat → Nat → List Nat → Option (Except ModbusError (List Nat))
  | _, _, 0, acc => some (.ok acc)
  | 0, _, _ + 1, _ => none
  | fuel + 1, addr, remaining + 1, acc =>
      let count := min (remaining + 1) maxRegs
      match dev addr count with
      | .error e => some (.error e)
      | .ok chunk =>
          read03BatchLoop dev maxRegs fuel (min (addr + count) 65535)
            (remaining + 1 - count) (acc ++ chunk)

/-- `ModbusClient::read_03_batch` from `src/client.rs` (lines 371-407):
early-returns an empty result for `quantity = 0`, otherwise runs the
chunking loop.  `quantity` iterations of fuel always suffice when
`maxRegs ≥ 1`, since each iteration consumes at least one register. -/
def read_03_batch (dev : Nat → Nat → Except ModbusError (List Nat))
    (address quantity maxRegs : Nat) :
    Option (Except ModbusError (List Nat)) :=
  if quantity = 0 then some (.ok [])
  else read03BatchLoop dev maxRegs quantity address quantity []

/-- Specification-side chunk schedule of the batched read, from the claim:
chunks of size `min remaining maxRegs` at addresses advancing by the chunk
size (saturating at 65535).  The spec-side choice `[]` for `maxRegs = 0`
stands in for the diverging Rust loop, which the implementation theorem
excludes by requiring `0 < maxRegs`. -/
def chunkList (addr q maxRegs : Nat) : List (Nat × Nat) :=
  if _h : q = 0 ∨ maxRegs = 0 then []
  else
    (addr, min q maxRegs) ::
      chunkList (min (addr + min q maxRegs) 65535) (q - min q maxRegs) maxRegs
termination_by q
decreasing_by
  simp_wf
  omega

/-- Specification-side sequential processing of the chunk schedule: issue
each sub-request in order, concatenate the results, and abort on the first
error without issuing further sub-requests. -/
def processChunks (dev : Nat → Nat → Except ModbusError (List Nat)) :
    List (Nat × Nat) → Except ModbusError (List Nat)
  | [] => .ok []
  | (a, c) :: rest =>
      match dev a c with
      | .error e => .error e
      | .ok regs =>
          match processChunks dev rest with
          | .error e => .error e
          | .ok tail => .ok (regs ++ tail)

/-- `ModbusValue` from `src/value.rs`.  The `f32`/`f64` payloads are carried
as their IEEE-754 bit patterns so the type stays kernel-computable; no
claim inspects them. -/
inductive ModbusValue where
  | Bool (b : Bool)
  | U16 (v : Nat)
  | I16 (v : Int)
  | U32 (v : Nat)
  | I32 (v : Int)
  | F32 (bits : Nat)
  | U64 (v : Nat)
  | I64 (v : Int)
  | F64 (bits : Nat)
deriving DecidableEq, Repr

/-- `BatchCommand` from `src/batcher.rs` (lines 56-72). -/
structure BatchCommand where
  point_id : Nat
  value : ModbusValue
  slave_id : Nat
  function_code : Nat
  register_address : Nat
  data_type : String
  byte_order : ByteOrder
deriving DecidableEq, Repr

/-- Placeholder command for the (never observed) out-of-bounds default of
index lookups; the Rust indices are in bounds by construction. -/
def dummyCommand : BatchCommand :=
  ⟨0, .U16 0, 0, 0, 0, "", .BigEndian⟩

/-- `commands[i].register_address`. -/
def cmdAddr (commands : List BatchCommand) (i : Nat) : Nat :=
  (commands.getD i dummyCommand).register_address

/-- `CommandBatcher::get_register_count` from `src/batcher.rs` (lines
184-186). -/
def get_register_count (data_type : String) : Nat :=
  registers_for_type data_type

/-- The verification walk of `are_strictly_consecutive` (src/batcher.rs
lines 172-179) over the sorted index list: each indexed command's address
must equal the running expected address, which then advances by the
command's register span.  `expected_addr` is a `u16`, so the advance wraps
mod 2^16 (release-mode Rust semantics; a debug build would panic on
overflow instead). -/
def consecWalk (commands : List BatchCommand) :
    List Nat → Nat → Bool
  | [], _ => true
  | idx :: rest, expected =>
      if cmdAddr commands idx ≠ expected then false
      else
        consecWalk commands rest
          ((expected + get_register_count
              (commands.getD idx dummyCommand).data_type) % 65536)

/-- Address comparison used when sorting commands. -/
def cmdLe (a b : BatchCommand) : Bool :=
  decide (a.register_address ≤ b.register_address)

/-- Specification-side walk over a sorted command list, from the claim:
each command's address must equal the running counter, which advances by
the command's register span (wrapping at 2^16 like the u16 counter). -/
def walkCmds : List BatchCommand → Nat → Bool
  | [], _ => true
  | c :: rest, expected =>
      if c.register_address ≠ expected then false
      else walkCmds rest ((expected + get_register_count c.data_type) % 65536)

/-- The index sort of `CommandBatcher::are_strictly_consecutive`
(src/batcher.rs lines 167-168): sorts an index list by register address
(`sort_by_key` is stable, modelled by `mergeSort` with non-strict `≤`,
which preserves the relative order of equal keys); the caller's slice
itself is never reordered. -/
def sortedIndices (commands : List BatchCommand) : List Nat :=
  (List.range commands.length).mergeSort
    (fun i j => decide (cmdAddr commands i ≤ cmdAddr commands j))

/-- `CommandBatcher::are_strictly_consecutive` from `src/batcher.rs` (lines
161-180): false for fewer than 2 commands, otherwise the expected-address
walk over the index list sorted by register address (the source binds the
sorted index vector once; here it is the shared definition
`sortedIndices`). -/
def are_strictly_consecutive (commands : List BatchCommand) : Bool :=
  if commands.length < 2 then false
  else
    consecWalk commands (sortedIndices commands)
      (cmdAddr commands ((sortedIndices commands).headD 0))

end VoltageModbus

namespace VoltageModbus

/-- C1: `regs_to_bytes_4` realises the ABCD / DCBA / CDAB / BADC byte layouts
and `regs_to_bytes_8` realises ABCDEFGH / HGFEDCBA / GHEFCDAB / BADCFEHG,
where A,B (resp. A..H) are the big-endian bytes of the registers in order. -/
theorem c1_regs_to_bytes_layouts (r0 r1 r2 r3 : Nat)
    (h0 : r0 < 65536) (h1 : r1 < 65536) (h2 : r2 < 65536) (h3 : r3 < 65536) :
    (regs_to_bytes_4 [r0, r1] .BigEndian
        = [r0 / 256, r0 % 256, r1 / 256, r1 % 256] ∧
     regs_to_bytes_4 [r0, r1] .LittleEndian
        = [r1 % 256, r1 / 256, r0 % 256, r0 / 256] ∧
     regs_to_bytes_4 [r0, r1] .BigEndianSwap
        = [r1 / 256, r1 % 256, r0 / 256, r0 % 256] ∧
     regs_to_bytes_4 [r0, r1] .LittleEndianSwap
        = [r0 % 256, r0 / 256, r1 % 256, r1 / 256]) ∧
    (regs_to_bytes_8 [r0, r1, r2, r3] .BigEndian
        = [r0 / 256, r0 % 256, r1 / 256, r1 % 256,
           r2 / 256, r2 % 256, r3 / 256, r3 % 256] ∧
     regs_to_bytes_8 [r0, r1, r2, r3] .LittleEndian
        = [r3 % 256, r3 / 256, r2 % 256, r2 / 256,
           r1 % 256, r1 / 256, r0 % 256, r0 / 256] ∧
     regs_to_bytes_8 [r0, r1, r2, r3] .BigEndianSwap
        = [r3 / 256, r3 % 256, r2 / 256, r2 % 256,
           r1 / 256, r1 % 256, r0 / 256, r0 % 256] ∧
     regs_to_bytes_8 [r0, r1, r2, r3] .LittleEndianSwap
        = [r0 % 256, r0 / 256, r1 % 256, r1 / 256,
           r2 % 256, r2 / 256, r3 % 256, r3 / 256]) := by
  have e0 : r0 / 256 % 256 = r0 / 256 := Nat.mod_eq_of_lt (by omega)
  have e1 : r1 / 256 % 256 = r1 / 256 := Nat.mod_eq_of_lt (by omega)
  have e2 : r2 / 256 % 256 = r2 / 256 := Nat.mod_eq_of_lt (by omega)
  have e3 : r3 / 256 % 256 = r3 / 256 := Nat.mod_eq_of_lt (by omega)
  refine ⟨⟨?_, ?_, ?_, ?_⟩, ⟨?_, ?_, ?_, ?_⟩⟩ <;>
    simp [regs_to_bytes_4, regs_to_bytes_8, u16hi, u16lo, e0, e1, e2, e3]

/-- Helper: splitting 4 bytes into registers and re-serialising the
registers restores the original bytes, for every byte-order variant. -/
theorem bytes4_regs_inv (order : ByteOrder) (b0 b1 b2 b3 : Nat)
    (h0 : b0 < 256) (h1 : b1 < 256) (h2 : b2 < 256) (h3 : b3 < 256) :
    regs_to_bytes_4 (bytes_4_to_regs [b0, b1, b2, b3] order) order
      = [b0, b1, b2, b3] := by
  cases order <;>
    (simp [regs_to_bytes_4, bytes_4_to_regs, u16be, u16hi, u16lo]; omega)

/-- Helper: splitting 8 bytes into registers and re-serialising the
registers restores the original bytes, for every byte-order variant. -/
theorem bytes8_regs_inv (order : ByteOrder) (b0 b1 b2 b3 b4 b5 b6 b7 : Nat)
    (h0 : b0 < 256) (h1 : b1 < 256) (h2 : b2 < 256) (h3 : b3 < 256)
    (h4 : b4 < 256) (h5 : b5 < 256) (h6 : b6 < 256) (h7 : b7 < 256) :
    regs_to_bytes_8 (bytes_8_to_regs [b0, b1, b2, b3, b4, b5, b6, b7] order) order
      = [b0, b1, b2, b3, b4, b5, b6, b7] := by
  cases order <;>
    (simp [regs_to_bytes_8, bytes_8_to_regs, u16be, u16hi, u16lo]; omega)

/-- Helper: decoding after encoding recovers any 32-bit value, for every
byte-order variant. -/
theorem u32_roundtrip (order : ByteOrder) (v : Nat) (hv : v < 4294967296) :
    regs_to_u32 (u32_to_regs v order) order = v := by
  have hb : regs_to_bytes_4 (bytes_4_to_regs (u32beBytes v) order) order
      = u32beBytes v := by
    simpa [u32beBytes] using
      bytes4_regs_inv order (v / 16777216 % 256) (v / 65536 % 256)
        (v / 256 % 256) (v % 256)
        (Nat.mod_lt _ (by norm_num)) (Nat.mod_lt _ (by norm_num))
        (Nat.mod_lt _ (by norm_num)) (Nat.mod_lt _ (by norm_num))
  rw [regs_to_u32, u32_to_regs, hb]
  simp [u32beBytes, beBytesToNat]
  omega

/-- Helper: decoding after encoding recovers any 64-bit value, for every
byte-order variant. -/
theorem u64_roundtrip (order : ByteOrder) (v : Nat) (hv : v < 18446744073709551616) :
    regs_to_u64 (u64_to_regs v order) order = v := by
  have hb : regs_to_bytes_8 (bytes_8_to_regs (u64beBytes v) order) order
      = u64beBytes v := by
    simpa [u64beBytes] using
      bytes8_regs_inv order
        (v / 72057594037927936 % 256) (v / 281474976710656 % 256)
        (v / 1099511627776 % 256) (v / 4294967296 % 256)
        (v / 16777216 % 256) (v / 65536 % 256) (v / 256 % 256) (v % 256)
        (Nat.mod_lt _ (by norm_num)) (Nat.mod_lt _ (by norm_num))
        (Nat.mod_lt _ (by norm_num)) (Nat.mod_lt _ (by norm_num))
        (Nat.mod_lt _ (by norm_num)) (Nat.mod_lt _ (by norm_num))
        (Nat.mod_lt _ (by norm_num)) (Nat.mod_lt _ (by norm_num))
  rw [regs_to_u64, u64_to_regs, hb]
  simp [u64beBytes, beBytesToNat]
  omega

/-- C2: for every byte-order variant, the register encodings of u32, i32,
u64 and i64 values are inverted exactly by the corresponding decoders. -/
theorem c2_encode_decode_roundtrip (order : ByteOrder) :
    (∀ v : Nat, v < 4294967296 →
        regs_to_u32 (u32_to_regs v order) order = v) ∧
    (∀ v : Int, -2147483648 ≤ v → v < 2147483648 →
        regs_to_i32 (i32_to_regs v order) order = v) ∧
    (∀ v : Nat, v < 18446744073709551616 →
        regs_to_u64 (u64_to_regs v order) order = v) ∧
    (∀ v : Int, -9223372036854775808 ≤ v → v < 9223372036854775808 →
        regs_to_i64 (i64_to_regs v order) order = v) := by
  refine ⟨fun v hv => u32_roundtrip order v hv, fun v hlo hhi => ?_,
          fun v hv => u64_roundtrip order v hv, fun v hlo hhi => ?_⟩
  · have h32 : regs_to_u32 (i32_to_regs v order) order
        = (v % 4294967296).toNat := by
      simpa [i32_to_regs] using
        u32_roundtrip order (v % 4294967296).toNat (by omega)
    have : regs_to_i32 (i32_to_regs v order) order
        = toSigned 32 ((v % 4294967296).toNat) := by
      simpa [regs_to_i32, regs_to_u32] using congrArg (toSigned 32) h32
    rw [this, toSigned]
    split <;> omega
  · have h64 : regs_to_u64 (i64_to_regs v order) order
        = (v % 18446744073709551616).toNat := by
      simpa [i64_to_regs] using
        u64_roundtrip order (v % 18446744073709551616).toNat (by omega)
    have : regs_to_i64 (i64_to_regs v order) order
        = toSigned 64 ((v % 18446744073709551616).toNat) := by
      simpa [regs_to_i64, regs_to_u64] using congrArg (toSigned 64) h64
    rw [this, toSigned]
    split <;> omega

/-- C2 witness: round trip at concrete values under `BigEndianSwap`. -/
theorem c2_encode_decode_roundtrip_witness :
    regs_to_u32 (u32_to_regs 0x12345678 .BigEndianSwap) .BigEndianSwap
        = 0x12345678 ∧
    regs_to_i32 (i32_to_regs (-2) .BigEndianSwap) .BigEndianSwap = -2 ∧
    regs_to_u64 (u64_to_regs 0x123456789ABCDEF0 .BigEndianSwap) .BigEndianSwap
        = 0x123456789ABCDEF0 ∧
    regs_to_i64 (i64_to_regs (-3) .BigEndianSwap) .BigEndianSwap = -3 := by
  have h := c2_encode_decode_roundtrip .BigEndianSwap
  exact ⟨h.1 0x12345678 (by norm_num),
         h.2.1 (-2) (by norm_num) (by norm_num),
         h.2.2.1 0x123456789ABCDEF0 (by norm_num),
         h.2.2.2 (-3) (by norm_num) (by norm_num)⟩

/-- C8 counterexample: `reg_to_bytes_2` does NOT default to big-endian for
the plain `LittleEndian` variant — it swaps the bytes, refuting the claim
that only the 16-bit-only tags are honored. -/
theorem c8_reg_to_bytes_2_little_endian_counterexample :
    reg_to_bytes_2 0x1234 .LittleEndian = [0x34, 0x12] ∧
    reg_to_bytes_2 0x1234 .LittleEndian ≠ [0x12, 0x34] := by
  constructor <;> decide

/-- C8 (amended): `reg_to_u16` and `reg_to_i16` swap bytes only for
`LittleEndian16` and behave big-endian (identity) for every other variant,
including `LittleEndian`, `BigEndianSwap` and `LittleEndianSwap`;
`reg_to_bytes_2` however emits little-endian bytes for both `LittleEndian`
and `LittleEndian16`, and big-endian bytes for the remaining four variants
(including the two swap variants). -/
theorem c8_single_register_helpers (r : Nat) (hr : r < 65536) :
    (∀ o : ByteOrder, o ≠ .LittleEndian16 → reg_to_u16 r o = r) ∧
    reg_to_u16 r .LittleEndian16 = r % 256 * 256 + r / 256 ∧
    (∀ o : ByteOrder, o ≠ .LittleEndian16 → reg_to_i16 r o = toSigned 16 r) ∧
    (∀ o : ByteOrder, o = .LittleEndian ∨ o = .LittleEndian16 →
        reg_to_bytes_2 r o = [r % 256, r / 256]) ∧
    (∀ o : ByteOrder, o ≠ .LittleEndian → o ≠ .LittleEndian16 →
        reg_to_bytes_2 r o = [r / 256, r % 256]) := by
  have e : r / 256 % 256 = r / 256 := Nat.mod_eq_of_lt (by omega)
  refine ⟨?_, ?_, ?_, ?_, ?_⟩
  · intro o ho; cases o <;> simp [reg_to_u16] at ho ⊢
  · simp [reg_to_u16, e]
  · intro o ho; cases o <;> simp [reg_to_i16, reg_to_u16] at ho ⊢
  · rintro o (rfl | rfl) <;> simp [reg_to_bytes_2, u16hi, u16lo, e]
  · intro o h1 h2; cases o <;>
      simp [reg_to_bytes_2, u16hi, u16lo, e] at h1 h2 ⊢

/-- C8 witness: the amended behavior evaluated at register `0x1234`. -/
theorem c8_single_register_helpers_witness :
    reg_to_u16 0x1234 .LittleEndian = 0x1234 ∧
    reg_to_u16 0x1234 .LittleEndian16 = 0x3412 ∧
    reg_to_bytes_2 0x1234 .BigEndianSwap = [0x12, 0x34] := by
  have h := c8_single_register_helpers 0x1234 (by decide)
  exact ⟨h.1 .LittleEndian (by decide), by simpa using h.2.1,
         h.2.2.2.2 .BigEndianSwap (by decide) (by decide)⟩

set_option maxRecDepth 4000 in
/-- C3 counterexample: on a PDU of length 252, `push_u16` fails (two bytes
do not fit) yet leaves the PDU mutated — the high byte was appended and the
length advanced to 253, refuting "any failing push_u16 leaves length
unchanged / no partial state". -/
theorem c3_push_u16_mutation_counterexample :
    (pduPushU16 (List.replicate 252 0) 0x1234).1.isSome = true ∧
    (pduPushU16 (List.replicate 252 0) 0x1234).2.length = 253 ∧
    (pduPushU16 (List.replicate 252 0) 0x1234).2.length ≠ 252 := by
  refine ⟨?_, ?_, ?_⟩ <;> decide

/-- C3 (amended): `push` and `extend` fail exactly when the append would
advance the length past the 253-byte capacity and leave the PDU unchanged
on failure; `push_u16` fails exactly when fewer than two bytes are free,
but when exactly one byte is free it appends its high byte before failing
(length becomes 253).  The length never exceeds 253 after any of the three
operations. -/
theorem c3_pdu_capacity (p : List Nat) (b v : Nat) (d : List Nat) :
    (p.length < 253 → pduPush p b = (none, p ++ [b])) ∧
    (p.length ≥ 253 →
        (pduPush p b).1.isSome = true ∧ (pduPush p b).2 = p) ∧
    (p.length + d.length ≤ 253 → pduExtend p d = (none, p ++ d)) ∧
    (p.length + d.length > 253 →
        (pduExtend p d).1.isSome = true ∧ (pduExtend p d).2 = p) ∧
    (p.length + 2 ≤ 253 →
        pduPushU16 p v = (none, p ++ [v / 256 % 256, v % 256])) ∧
    (p.length = 252 →
        (pduPushU16 p v).1.isSome = true ∧
        (pduPushU16 p v).2 = p ++ [v / 256 % 256]) ∧
    (p.length ≥ 253 →
        (pduPushU16 p v).1.isSome = true ∧ (pduPushU16 p v).2 = p) ∧
    (p.length ≤ 253 →
        (pduPush p b).2.length ≤ 253 ∧ (pduPushU16 p v).2.length ≤ 253 ∧
        (pduExtend p d).2.length ≤ 253) := by
  have hpush : ∀ (q : List Nat) (c : Nat), q.length < 253 →
      pduPush q c = (none, q ++ [c]) := by
    intro q c hq
    simp [pduPush, MAX_PDU_SIZE, Nat.not_le_of_lt hq]
  have hpushfail : ∀ (q : List Nat) (c : Nat), q.length ≥ 253 →
      pduPush q c = (some (.Protocol "PDU buffer full"), q) := by
    intro q c hq
    simp [pduPush, MAX_PDU_SIZE, hq]
  have hu16ok : ∀ (q : List Nat) (w : Nat), q.length + 2 ≤ 253 →
      pduPushU16 q w = (none, q ++ [w / 256 % 256, w % 256]) := by
    intro q w hq
    rw [pduPushU16, hpush q (w / 256 % 256) (by omega)]
    show pduPush (q ++ [w / 256 % 256]) (w % 256) = _
    rw [hpush (q ++ [w / 256 % 256]) (w % 256) (by simp; omega)]
    simp
  have hu16mid : ∀ (q : List Nat) (w : Nat), q.length = 252 →
      pduPushU16 q w = (some (.Protocol "PDU buffer full"),
        q ++ [w / 256 % 256]) := by
    intro q w hq
    rw [pduPushU16, hpush q (w / 256 % 256) (by omega)]
    show pduPush (q ++ [w / 256 % 256]) (w % 256) = _
    rw [hpushfail (q ++ [w / 256 % 256]) (w % 256) (by simp; omega)]
  have hu16fail : ∀ (q : List Nat) (w : Nat), q.length ≥ 253 →
      pduPushU16 q w = (some (.Protocol "PDU buffer full"), q) := by
    intro q w hq
    rw [pduPushU16, hpushfail q (w / 256 % 256) hq]
  refine ⟨fun h => hpush p b h, fun h => ?_, fun h => ?_, fun h => ?_,
          fun h => hu16ok p v h, fun h => ?_, fun h => ?_, fun h => ?_⟩
  · rw [hpushfail p b h]; exact ⟨rfl, rfl⟩
  · simp [pduExtend, MAX_PDU_SIZE, Nat.not_lt_of_le h]
  · have : p.length + d.length > MAX_PDU_SIZE := h
    simp [pduExtend, this]
  · rw [hu16mid p v h]; exact ⟨rfl, rfl⟩
  · rw [hu16fail p v h]; exact ⟨rfl, rfl⟩
  · refine ⟨?_, ?_, ?_⟩
    · by_cases hl : p.length < 253
      · rw [hpush p b hl]; simp; omega
      · rw [hpushfail p b (by omega)]; simpa using h
    · by_cases h2 : p.length + 2 ≤ 253
      · rw [hu16ok p v h2]; simp; omega
      · by_cases h1 : p.length = 252
        · rw [hu16mid p v h1]; simp; omega
        · rw [hu16fail p v (by omega)]; simpa using h
    · by_cases hd : p.length + d.length ≤ 253
      · simp [pduExtend, MAX_PDU_SIZE, Nat.not_lt_of_le hd]; omega
      · have : p.length + d.length > MAX_PDU_SIZE := by
          simp [MAX_PDU_SIZE]; omega
        simp [pduExtend, this]; omega

set_option maxRecDepth 4000 in
/-- C3 witness: the amended behavior at concrete PDUs, including the
partial-state case at length 252 and the failure case at length 253. -/
theorem c3_pdu_capacity_witness :
    pduPush [1, 2, 3] 9 = (none, [1, 2, 3, 9]) ∧
    pduExtend [1, 2, 3] [7, 8] = (none, [1, 2, 3, 7, 8]) ∧
    pduPushU16 [1, 2, 3] 0x1234 = (none, [1, 2, 3, 0x12, 0x34]) ∧
    (pduPushU16 (List.replicate 252 0) 0x1234).2
        = List.replicate 252 0 ++ [0x12] ∧
    (pduPush (List.replicate 253 0) 9).2 = List.replicate 253 0 := by
  have hsmall := c3_pdu_capacity [1, 2, 3] 9 0x1234 [7, 8]
  have h252 := c3_pdu_capacity (List.replicate 252 0) 9 0x1234 [7, 8]
  have h253 := c3_pdu_capacity (List.replicate 253 0) 9 0x1234 [7, 8]
  refine ⟨hsmall.1 (by decide), hsmall.2.2.1 (by decide), ?_, ?_, ?_⟩
  · simpa using hsmall.2.2.2.2.1 (by decide)
  · simpa using (h252.2.2.2.2.2.1 (by simp)).2
  · exact (h253.2.1 (by simp)).2

/-- Helper: a builder `push` succeeds below capacity. -/
theorem pushE_ok (q : List Nat) (c : Nat) (h : q.length < 253) :
    pushE q c = .ok (q ++ [c]) := by
  simp [pushE, pduPush, MAX_PDU_SIZE, Nat.not_le_of_lt h]

/-- Helper: a builder `push` at capacity fails. -/
theorem pushE_err (q : List Nat) (c : Nat) (h : 253 ≤ q.length) :
    pushE q c = .error (.Protocol "PDU buffer full") := by
  simp [pushE, pduPush, MAX_PDU_SIZE, h]

/-- Helper: a builder `push_u16` succeeds when two bytes fit. -/
theorem pushU16E_ok (q : List Nat) (w : Nat) (h : q.length + 2 ≤ 253) :
    pushU16E q w = .ok (q ++ [w / 256 % 256, w % 256]) := by
  have e1 : pduPush q (w / 256 % 256) = (none, q ++ [w / 256 % 256]) := by
    simp only [pduPush]
    rw [if_neg (by simp [MAX_PDU_SIZE]; omega)]
  have e2 : pduPush (q ++ [w / 256 % 256]) (w % 256)
      = (none, q ++ [w / 256 % 256, w % 256]) := by
    simp only [pduPush]
    rw [if_neg (by simp [MAX_PDU_SIZE]; omega)]
    simp
  rw [pushU16E, pduPushU16, e1]
  show (match pduPush (q ++ [w / 256 % 256]) (w % 256) with
        | (some e, _) => Except.error e
        | (none, p1) => Except.ok p1) = _
  rw [e2]

/-- Helper: the register-byte loop of `build_write_multiple_registers`
succeeds exactly when all pushed bytes fit in the 253-byte capacity, and
fails with the `push` error otherwise. -/
theorem writeRegsFold_spec (values : List Nat) : ∀ p : List Nat,
    p.length ≤ 253 →
    writeRegsFold p values =
      if p.length + 2 * values.length ≤ 253 then
        .ok (p ++ values.flatMap (fun v => [v / 256 % 256, v % 256]))
      else .error (.Protocol "PDU buffer full") := by
  induction values with
  | nil => intro p hp; simp [writeRegsFold, hp]
  | cons v rest ih =>
    intro p hp
    rw [writeRegsFold]
    by_cases h1 : p.length < 253
    · rw [pushE_ok p (v / 256 % 256) h1]
      simp only [andThenE]
      by_cases h2 : p.length + 1 < 253
      · rw [show pushE (p ++ [v / 256 % 256]) (v % 256)
              = .ok (p ++ [v / 256 % 256, v % 256]) by
            rw [pushE_ok (p ++ [v / 256 % 256]) (v % 256) (by simpa using h2)]
            simp]
        simp only [andThenE]
        rw [ih (p ++ [v / 256 % 256, v % 256]) (by simp; omega)]
        by_cases h3 : p.length + 2 * (v :: rest).length ≤ 253
        · rw [if_pos (by simp at h3 ⊢; omega), if_pos h3]
          simp
        · rw [if_neg (by simp at h3 ⊢; omega), if_neg h3]
      · rw [pushE_err (p ++ [v / 256 % 256]) (v % 256)
            (by simp only [List.length_append, List.length_cons,
                           List.length_nil]; omega)]
        rw [if_neg (by simp only [List.length_cons]; omega)]
    · rw [pushE_err p (v / 256 % 256) (by omega)]
      rw [if_neg (by simp only [List.length_cons]; omega)]
      rfl

/-- Helper: `packCoils` produces exactly `⌈n/8⌉` bytes. -/
theorem packCoils_length (values : List Bool) :
    (packCoils values).length = (values.length + 7) / 8 := by
  simp [packCoils]

/-- Helper: a builder `extend` succeeds when the payload fits. -/
theorem extendE_ok (q d : List Nat) (h : q.length + d.length ≤ 253) :
    extendE q d = .ok (q ++ d) := by
  simp only [extendE, pduExtend, MAX_PDU_SIZE]
  rw [if_neg (by omega)]

/-- Helper: a builder `extend` whose payload does not fit fails. -/
theorem extendE_err (q d : List Nat) (h : q.length + d.length > 253) :
    ∃ e, extendE q d = .error e := by
  simp only [extendE, pduExtend, MAX_PDU_SIZE]
  rw [if_pos (by omega)]
  exact ⟨_, rfl⟩

/-- C5 counterexample: `PduBuilder::build_write_multiple_coils` accepts
1969 coils — above the 1968-coil protocol ceiling — and succeeds (the
packed PDU is exactly 253 bytes), refuting the claim that every
PDU-builder-layer FC15 construction with more than 1968 coils fails. -/
theorem c5_coils_over_limit_counterexample :
    ∃ p, buildWriteMultipleCoils 0 (List.replicate 1969 true) = .ok p := by
  simp only [buildWriteMultipleCoils, List.length_replicate]
  rw [pushE_ok [] 0x0F (by simp)]
  simp only [andThenE, List.nil_append]
  rw [pushU16E_ok [0x0F] 0 (by simp)]
  simp only [andThenE]
  rw [pushU16E_ok _ (1969 % 65536) (by simp)]
  simp only [andThenE]
  rw [pushE_ok _ ((1969 + 7) / 8 % 256) (by simp)]
  simp only [andThenE]
  rw [extendE_ok _ _ (by
    simp only [packCoils_length, List.length_replicate, List.length_append,
               List.length_cons, List.length_nil]
    norm_num)]
  exact ⟨_, rfl⟩

/-- C5 (amended): the codec-layer builders enforce the protocol ceilings up
front — `build_fc15_pdu` rejects more than 1968 coils and `build_fc16_pdu`
rejects more than 123 registers before producing any bytes — and
`PduBuilder::build_write_multiple_registers` also fails for more than 123
registers (the 253-byte PDU capacity overflows); but
`PduBuilder::build_write_multiple_coils` enforces no coil ceiling and fails
only when the packed PDU exceeds 253 bytes, i.e. only above 1976 coils. -/
theorem c5_write_ceilings (addr : Nat) (coils bigCoils : List Bool)
    (regs : List Nat) (hc : coils.length > 1968) (hr : regs.length > 123)
    (hb : bigCoils.length > 1976) :
    build_fc15_pdu addr coils
        = .error (.InvalidData "Invalid coil count for FC15") ∧
    build_fc16_pdu addr regs
        = .error (.InvalidData "Invalid register count for FC16") ∧
    buildWriteMultipleRegisters addr regs
        = .error (.Protocol "PDU buffer full") ∧
    (∃ e, buildWriteMultipleCoils addr bigCoils = .error e) := by
  refine ⟨?_, ?_, ?_, ?_⟩
  · rw [build_fc15_pdu, if_pos]
    simp [MAX_WRITE_COILS]
    omega
  · rw [build_fc16_pdu, if_pos]
    simp [MAX_WRITE_REGISTERS]
    omega
  · simp only [buildWriteMultipleRegisters]
    rw [pushE_ok [] 0x10 (by simp)]
    simp only [andThenE, List.nil_append]
    rw [pushU16E_ok [0x10] addr (by simp)]
    simp only [andThenE]
    rw [pushU16E_ok _ (regs.length % 65536) (by simp)]
    simp only [andThenE]
    rw [pushE_ok _ (regs.length * 2 % 256) (by simp)]
    simp only [andThenE]
    rw [writeRegsFold_spec regs _ (by simp)]
    rw [if_neg (by simp; omega)]
  · simp only [buildWriteMultipleCoils]
    rw [pushE_ok [] 0x0F (by simp)]
    simp only [andThenE, List.nil_append]
    rw [pushU16E_ok [0x0F] addr (by simp)]
    simp only [andThenE]
    rw [pushU16E_ok _ (bigCoils.length % 65536) (by simp)]
    simp only [andThenE]
    rw [pushE_ok _ ((bigCoils.length + 7) / 8 % 256) (by simp)]
    simp only [andThenE]
    exact extendE_err _ _ (by
      simp only [packCoils_length, List.length_append, List.length_cons,
                 List.length_nil]
      omega)

set_option maxRecDepth 8000 in
/-- C5 witness: the amended ceilings at 1969 coils, 124 registers and 1977
coils respectively. -/
theorem c5_write_ceilings_witness :
    build_fc15_pdu 0 (List.replicate 1969 true)
        = .error (.InvalidData "Invalid coil count for FC15") ∧
    build_fc16_pdu 0 (List.replicate 124 0)
        = .error (.InvalidData "Invalid register count for FC16") ∧
    buildWriteMultipleRegisters 0 (List.replicate 124 0)
        = .error (.Protocol "PDU buffer full") ∧
    (∃ e, buildWriteMultipleCoils 0 (List.replicate 1977 true)
        = .error e) := by
  exact c5_write_ceilings 0 (List.replicate 1969 true)
    (List.replicate 1977 true) (List.replicate 124 0)
    (by simp) (by simp) (by simp)

/-- C6: `parse_read_response` returns an empty success for PDUs shorter
than 2 bytes; fails with a function-code-mismatch error when the first byte
differs from the expected code; otherwise clamps the byte-count field to
the bytes actually present and returns, for codes 1/2, one widened element
per available data byte and, for codes 3/4, one big-endian register per
complete 2-byte pair with a partial trailing byte dropped silently. -/
theorem c6_parse_read_response (pdu : List Nat) (fc expected : Nat) :
    (pdu.length < 2 → parse_read_response pdu fc expected = .ok []) ∧
    (2 ≤ pdu.length → pdu.headD 0 ≠ fc →
        parse_read_response pdu fc expected
          = .error (.Protocol ("Function code mismatch: expected "
              ++ toString fc ++ ", got " ++ toString (pdu.headD 0)))) ∧
    (fc = 1 ∨ fc = 2 → 2 ≤ pdu.length → pdu.headD 0 = fc →
        parse_read_response pdu fc expected
          = .ok ((pdu.drop 2).take (min (pdu.getD 1 0) (pdu.length - 2)))) ∧
    (fc = 3 ∨ fc = 4 → 2 ≤ pdu.length → pdu.headD 0 = fc →
        parse_read_response pdu fc expected
          = .ok ((List.range (min (pdu.getD 1 0) (pdu.length - 2) / 2)).map
              (fun i => pdu.getD (2 + i * 2) 0 * 256
                  + pdu.getD (2 + i * 2 + 1) 0))) := by
  refine ⟨fun h => ?_, fun h2 hne => ?_, fun hfc h2 heq => ?_,
          fun hfc h2 heq => ?_⟩
  · simp only [parse_read_response]
    rw [if_pos h]
  · simp only [parse_read_response]
    rw [if_neg (by omega), if_pos hne]
  · simp only [parse_read_response]
    rw [if_neg (by omega), if_neg (by simpa using heq), if_pos hfc]
  · simp only [parse_read_response]
    rw [if_neg (by omega), if_neg (by simpa using heq),
        if_neg (by omega), if_pos hfc]
    refine congrArg Except.ok ?_
    rw [List.filterMap_eq_map_iff_forall_eq_some.mpr ?_]
    intro i hi
    rw [List.mem_range] at hi
    rw [if_pos (by omega)]

/-- C6 witness: the four behaviors at concrete PDUs — a short PDU, a coil
response, a register response and a mismatching function code. -/
theorem c6_parse_read_response_witness :
    parse_read_response [3] 3 1 = .ok [] ∧
    parse_read_response [1, 1, 9] 1 1 = .ok [9] ∧
    parse_read_response [3, 4, 0, 1, 0, 2] 3 2 = .ok [1, 2] ∧
    (∃ e, parse_read_response [4, 2] 3 1 = .error e) := by
  refine ⟨(c6_parse_read_response [3] 3 1).1 (by decide), ?_, ?_, ?_⟩
  · exact ((c6_parse_read_response [1, 1, 9] 1 1).2.2.1
      (Or.inl rfl) (by decide) (by decide)).trans (by rfl)
  · exact ((c6_parse_read_response [3, 4, 0, 1, 0, 2] 3 2).2.2.2
      (Or.inl rfl) (by decide) (by decide)).trans (by rfl)
  · exact ⟨_, (c6_parse_read_response [4, 2] 3 1).2.1
      (by decide) (by decide)⟩

/-- C10: for an expected function code outside {1,2,3,4}, a PDU of at least
2 bytes whose first byte matches it makes `parse_read_response` fail with
the "Unsupported function code" protocol error. -/
theorem c10_parse_unsupported_function_code (pdu : List Nat) (fc expected : Nat)
    (h1 : fc ≠ 1) (h2 : fc ≠ 2) (h3 : fc ≠ 3) (h4 : fc ≠ 4)
    (hlen : 2 ≤ pdu.length) (hhead : pdu.headD 0 = fc) :
    parse_read_response pdu fc expected
      = .error (.Protocol ("Unsupported function code: " ++ toString fc)) := by
  simp only [parse_read_response]
  rw [if_neg (by omega), if_neg (by simpa using hhead),
      if_neg (by omega), if_neg (by omega)]

/-- C10 witness: expected code 5 with a matching 2-byte PDU. -/
theorem c10_parse_unsupported_function_code_witness :
    parse_read_response [5, 0] 5 0
      = .error (.Protocol "Unsupported function code: 5") :=
  (c10_parse_unsupported_function_code [5, 0] 5 0 (by decide) (by decide)
    (by decide) (by decide) (by decide) (by decide)).trans (by rfl)

/-- C7 counterexample: `encode_f64_as_type` with the unrecognized type tag
"mystery" takes the wildcard arm and returns an `InvalidData` error — it
does not pass the value through without an error. -/
theorem c7_encode_unknown_tag_counterexample :
    encode_f64_as_type_kind "mystery"
      = .error (.InvalidData "Unsupported data type: mystery") := by
  rfl

set_option maxHeartbeats 1600000 in
/-- C7 (amended): for every type tag outside the recognized aliases,
`encode_f64_as_type` fails with the `InvalidData` "Unsupported data type"
error — the same strict failure as `decode_register_value` — while the
lenient unclamped pass-through lives in `clamp_to_data_type`, which returns
the value unchanged for such tags. -/
theorem c7_encode_unknown_tag_strict (tag : String)
    (h : toLowerStr tag ∉ (["bool", "boolean", "coil", "uint16", "u16",
        "word", "int16", "i16", "short", "uint32", "u32", "dword", "int32",
        "i32", "long", "float32", "f32", "float", "real", "uint64", "u64",
        "qword", "int64", "i64", "longlong", "float64", "f64", "double",
        "lreal"] : List String)) :
    encode_f64_as_type_kind tag
      = .error (.InvalidData ("Unsupported data type: " ++ tag)) ∧
    ∀ v : ℚ, clamp_to_data_type v tag = v := by
  constructor
  · unfold encode_f64_as_type_kind
    split
    all_goals simp_all
  · have hb : clampBounds tag = none := by
      unfold clampBounds
      split
      all_goals first
      | rfl
      | (exfalso; simp_all)
    intro v
    rw [clamp_to_data_type, hb]

/-- C7 witness: the amended behavior at the tag "mystery". -/
theorem c7_encode_unknown_tag_strict_witness :
    encode_f64_as_type_kind "mystery"
      = .error (.InvalidData ("Unsupported data type: " ++ "mystery")) ∧
    clamp_to_data_type (3 / 2 : ℚ) "mystery" = (3 / 2 : ℚ) := by
  have h := c7_encode_unknown_tag_strict "mystery" (by decide)
  exact ⟨h.1, h.2 (3 / 2 : ℚ)⟩

/-- Helper: the chunking loop computes exactly the sequential processing of
the chunk schedule, with the accumulator prefixed to a successful result. -/
theorem read03BatchLoop_spec (dev : Nat → Nat → Except ModbusError (List Nat))
    (maxRegs : Nat) (hmax : 0 < maxRegs) :
    ∀ fuel remaining addr acc, remaining ≤ fuel →
    read03BatchLoop dev maxRegs fuel addr remaining acc
      = some ((processChunks dev (chunkList addr remaining maxRegs)).map
          (acc ++ ·)) := by
  intro fuel
  induction fuel with
  | zero =>
    intro remaining addr acc h
    have : remaining = 0 := by omega
    subst this
    rw [chunkList]
    simp [read03BatchLoop, processChunks, Except.map]
  | succ fuel ih =>
    intro remaining addr acc h
    match remaining with
    | 0 =>
      rw [chunkList]
      simp [read03BatchLoop, processChunks, Except.map]
    | r + 1 =>
      rw [chunkList, dif_neg (by omega)]
      rw [read03BatchLoop]
      cases hdev : dev addr (min (r + 1) maxRegs) with
      | error e => simp [processChunks, hdev, Except.map]
      | ok chunk =>
        show read03BatchLoop dev maxRegs fuel
            (min (addr + min (r + 1) maxRegs) 65535)
            (r + 1 - min (r + 1) maxRegs) (acc ++ chunk) = _
        rw [ih (r + 1 - min (r + 1) maxRegs) (min (addr + min (r + 1) maxRegs) 65535)
            (acc ++ chunk) (by omega)]
        simp only [processChunks, hdev]
        cases hrest : processChunks dev
            (chunkList (min (addr + min (r + 1) maxRegs) 65535)
              (r + 1 - min (r + 1) maxRegs) maxRegs) with
        | error e => simp [Except.map]
        | ok tail => simp [Except.map]

/-- C4: with a positive per-request register limit, the chunked FC03 read
equals the sequential processing of the chunk schedule: quantity 0 issues
no sub-requests and returns an empty result, chunks have size
`min remaining maxRegs` at addresses advancing (saturating) by the chunk
size, results are concatenated in issue order, and the first sub-request
error is returned with no further sub-requests and no partial results; the
schedule for quantity 120 with limit 50 is exactly (0,50),(50,50),(100,20). -/
theorem c4_read_03_batch (dev : Nat → Nat → Except ModbusError (List Nat))
    (address quantity maxRegs : Nat) (hmax : 0 < maxRegs) :
    read_03_batch dev address quantity maxRegs
      = some (processChunks dev (chunkList address quantity maxRegs)) ∧
    (quantity = 0 → chunkList address quantity maxRegs = [] ∧
        read_03_batch dev address quantity maxRegs = some (.ok [])) ∧
    chunkList 0 120 50 = [(0, 50), (50, 50), (100, 20)] := by
  refine ⟨?_, fun h0 => ?_, ?_⟩
  · rw [read_03_batch]
    by_cases h0 : quantity = 0
    · rw [if_pos h0, h0, chunkList]
      simp [processChunks]
    · rw [if_neg h0,
          read03BatchLoop_spec dev maxRegs hmax quantity quantity address []
            (le_refl quantity)]
      cases hpc : processChunks dev (chunkList address quantity maxRegs) with
      | error e => simp [Except.map]
      | ok tail => simp [Except.map]
  · subst h0
    rw [chunkList]
    simp [read_03_batch]
  · rw [chunkList]
    norm_num
    rw [chunkList]
    norm_num
    rw [chunkList]
    norm_num
    rw [chunkList]
    norm_num

/-- C4 witness: 120 registers with a 50-register limit against a device
returning `c` zeros per `c`-register request reads 120 zeros. -/
theorem c4_read_03_batch_witness :
    read_03_batch (fun _ c => .ok (List.replicate c 0)) 0 120 50
      = some (.ok (List.replicate 120 0)) := by
  have h := c4_read_03_batch (fun _ c => .ok (List.replicate c 0)) 0 120 50
    (by norm_num)
  rw [h.1, h.2.2]
  simp only [processChunks]
  rw [show List.replicate 120 (0 : Nat)
        = List.replicate 50 0 ++ (List.replicate 50 0
            ++ (List.replicate 20 0 ++ [])) by
      simp [← List.replicate_add]]

/-- Helper: indexing a list at every position in order reproduces it. -/
theorem map_getD_range (l : List BatchCommand) :
    (List.range l.length).map (fun i => l.getD i dummyCommand) = l := by
  apply List.ext_getElem
  · simp
  · intro n h1 h2
    rw [List.getElem_map, List.getElem_range]
    exact List.getD_eq_getElem l dummyCommand h2

/-- Helper: walking an index list equals walking the indexed commands. -/
theorem consecWalk_eq_walkCmds (commands : List BatchCommand) :
    ∀ (idxs : List Nat) (e : Nat),
    consecWalk commands idxs e
      = walkCmds (idxs.map (fun i => commands.getD i dummyCommand)) e := by
  intro idxs
  induction idxs with
  | nil => intro e; rfl
  | cons i t ih =>
    intro e
    simp only [consecWalk, walkCmds, List.map_cons, cmdAddr]
    split
    · rfl
    · exact ih _

/-- Helper: the sorted index vector, mapped back through the command list,
is the command list sorted by address. -/
theorem sortedIndices_map (commands : List BatchCommand) :
    (sortedIndices commands).map (fun i => commands.getD i dummyCommand)
      = commands.mergeSort cmdLe := by
  rw [sortedIndices,
      List.map_mergeSort
        (r := fun i j => decide (cmdAddr commands i ≤ cmdAddr commands j))
        (s := cmdLe) (f := fun i => commands.getD i dummyCommand)
        (l := List.range commands.length) (fun a _ b _ => rfl),
      map_getD_range]

/-- Helper: fewer than 2 commands are never strictly consecutive. -/
theorem are_strictly_consecutive_short (commands : List BatchCommand)
    (h : commands.length < 2) :
    are_strictly_consecutive commands = false := by
  simp [are_strictly_consecutive, h]

/-- Helper: with at least 2 commands, `are_strictly_consecutive` is the
expected-address walk over the command list sorted (stably) by register
address, starting at the first sorted command's address. -/
theorem are_strictly_consecutive_char (commands : List BatchCommand)
    (h : 2 ≤ commands.length) :
    are_strictly_consecutive commands
      = walkCmds (commands.mergeSort cmdLe)
          ((commands.mergeSort cmdLe).headD dummyCommand).register_address := by
  rw [are_strictly_consecutive, if_neg (by omega)]
  have hlen : (sortedIndices commands).length = commands.length := by
    rw [sortedIndices, List.length_mergeSort, List.length_range]
  rw [consecWalk_eq_walkCmds, sortedIndices_map]
  congr 1
  cases hm : sortedIndices commands with
  | nil => rw [hm] at hlen; simp at hlen; omega
  | cons i t =>
    have : (commands.mergeSort cmdLe).headD dummyCommand
        = commands.getD i dummyCommand := by
      rw [← sortedIndices_map, hm]
      rfl
    rw [this]
    rfl

/-- Helper: two sorted lists that are permutations of each other and have
pairwise-distinct register addresses are equal. -/
theorem sorted_perm_eq (l₁ : List BatchCommand) : ∀ l₂ : List BatchCommand,
    l₁.Perm l₂ →
    l₁.Pairwise (fun a b => a.register_address ≤ b.register_address) →
    l₂.Pairwise (fun a b => a.register_address ≤ b.register_address) →
    l₁.Pairwise (fun a b => a.register_address ≠ b.register_address) →
    l₁ = l₂ := by
  induction l₁ with
  | nil => intro l₂ hp _ _ _; exact hp.nil_eq
  | cons a t ih =>
    intro l₂ hp hs₁ hs₂ hd
    cases l₂ with
    | nil => exact absurd hp.symm.nil_eq (by simp)
    | cons b t₂ =>
      have hab : a = b := by
        by_contra hne
        have hbmem : b ∈ a :: t := hp.mem_iff.mpr (by simp)
        have hamem : a ∈ b :: t₂ := hp.mem_iff.mp (by simp)
        have hb_t : b ∈ t := by
          rcases List.mem_cons.mp hbmem with h | h
          · exact absurd h.symm hne
          · exact h
        have ha_t₂ : a ∈ t₂ := by
          rcases List.mem_cons.mp hamem with h | h
          · exact absurd h hne
          · exact h
        have h₁ : a.register_address ≤ b.register_address :=
          (List.pairwise_cons.mp hs₁).1 b hb_t
        have h₂ : b.register_address ≤ a.register_address :=
          (List.pairwise_cons.mp hs₂).1 a ha_t₂
        have h₃ : a.register_address ≠ b.register_address :=
          (List.pairwise_cons.mp hd).1 b hb_t
        omega
      subst hab
      rw [ih t₂ hp.cons_inv (List.pairwise_cons.mp hs₁).2
          (List.pairwise_cons.mp hs₂).2 (List.pairwise_cons.mp hd).2]

/-- Helper: the address comparison is transitive. -/
theorem cmdLe_trans (a b c : BatchCommand) (h1 : cmdLe a b = true)
    (h2 : cmdLe b c = true) : cmdLe a c = true := by
  simp [cmdLe] at h1 h2 ⊢
  omega

/-- Helper: the address comparison is total. -/
theorem cmdLe_total (a b : BatchCommand) : (cmdLe a b || cmdLe b a) = true := by
  simp [cmdLe]
  omega

/-- C9 counterexample: two commands sharing register address 100, one
spanning 0 registers ("bool") and one spanning 1 ("uint16").  The stable
index sort keeps the tied addresses in input order, so one input order
walks successfully and the other does not — the result is NOT independent
of the input order, refuting that part of the claim. -/
theorem c9_order_dependence_counterexample :
    are_strictly_consecutive
      [⟨2, .U16 0, 1, 6, 100, "bool", .BigEndian⟩,
       ⟨1, .U16 0, 1, 6, 100, "uint16", .BigEndian⟩] = true ∧
    are_strictly_consecutive
      [⟨1, .U16 0, 1, 6, 100, "uint16", .BigEndian⟩,
       ⟨2, .U16 0, 1, 6, 100, "bool", .BigEndian⟩] = false := by
  constructor
  · rw [are_strictly_consecutive, if_neg (by decide), sortedIndices,
        List.mergeSort_of_sorted (by decide)]
    decide
  · rw [are_strictly_consecutive, if_neg (by decide), sortedIndices,
        List.mergeSort_of_sorted (by decide)]
    decide

/-- C9 (amended): `are_strictly_consecutive` returns false for fewer than
2 commands; otherwise it equals the expected-address walk over the command
list stably sorted by register address (without mutating the caller's
list), starting at the lowest address and advancing by each command's
register span, so any gap or mismatch yields false; and the result is
independent of the input order whenever the commands' register addresses
are pairwise distinct (with tied addresses the stable sort keeps the input
order, which the counterexample shows can change the result). -/
theorem c9_are_strictly_consecutive_spec (commands : List BatchCommand) :
    (commands.length < 2 → are_strictly_consecutive commands = false) ∧
    (2 ≤ commands.length →
        are_strictly_consecutive commands
          = walkCmds (commands.mergeSort cmdLe)
              ((commands.mergeSort cmdLe).headD dummyCommand).register_address) ∧
    (∀ l₂ : List BatchCommand, commands.Perm l₂ →
        commands.Pairwise
          (fun a b => a.register_address ≠ b.register_address) →
        are_strictly_consecutive commands = are_strictly_consecutive l₂) := by
  refine ⟨are_strictly_consecutive_short commands,
          are_strictly_consecutive_char commands, ?_⟩
  intro l₂ hperm hdist
  by_cases hl : commands.length < 2
  · rw [are_strictly_consecutive_short commands hl,
        are_strictly_consecutive_short l₂ (by rw [← hperm.length_eq]; exact hl)]
  · have h2 : 2 ≤ commands.length := by omega
    have h2' : 2 ≤ l₂.length := by rw [← hperm.length_eq]; omega
    have hsorteq : commands.mergeSort cmdLe = l₂.mergeSort cmdLe := by
      apply sorted_perm_eq
      · exact (List.mergeSort_perm commands cmdLe).trans
          (hperm.trans (List.mergeSort_perm l₂ cmdLe).symm)
      · exact (List.sorted_mergeSort cmdLe_trans cmdLe_total commands).imp
          (fun hab => by simpa [cmdLe] using hab)
      · exact (List.sorted_mergeSort cmdLe_trans cmdLe_total l₂).imp
          (fun hab => by simpa [cmdLe] using hab)
      · exact ((List.mergeSort_perm commands cmdLe).pairwise_iff
          (fun hxy => hxy.symm)).mpr hdist
    rw [are_strictly_consecutive_char commands h2,
        are_strictly_consecutive_char l₂ h2', hsorteq]

/-- C9 witness: a single command is not consecutive; three uint16 commands
at 100, 101, 102 are consecutive; and for two distinct-address commands the
result is the same in either input order. -/
theorem c9_are_strictly_consecutive_spec_witness :
    are_strictly_consecutive
      [⟨1, .U16 0, 1, 6, 100, "uint16", .BigEndian⟩] = false ∧
    are_strictly_consecutive
      [⟨1, .U16 0, 1, 6, 100, "uint16", .BigEndian⟩,
       ⟨2, .U16 0, 1, 6, 101, "uint16", .BigEndian⟩,
       ⟨3, .U16 0, 1, 6, 102, "uint16", .BigEndian⟩] = true ∧
    are_strictly_consecutive
      [⟨2, .U16 0, 1, 6, 101, "uint16", .BigEndian⟩,
       ⟨1, .U16 0, 1, 6, 100, "uint16", .BigEndian⟩]
      = are_strictly_consecutive
          [⟨1, .U16 0, 1, 6, 100, "uint16", .BigEndian⟩,
           ⟨2, .U16 0, 1, 6, 101, "uint16", .BigEndian⟩] := by
  refine ⟨(c9_are_strictly_consecutive_spec _).1 (by decide), ?_, ?_⟩
  · rw [(c9_are_strictly_consecutive_spec _).2.1 (by decide),
        List.mergeSort_of_sorted (by decide)]
    decide
  · exact (c9_are_strictly_consecutive_spec _).2.2 _
      (List.Perm.swap _ _ _) (by decide)

/-- C1 witness: the spec's concrete example registers. -/
theorem c1_regs_to_bytes_layouts_witness :
    regs_to_bytes_4 [0x1234, 0x5678] .BigEndian = [0x12, 0x34, 0x56, 0x78] ∧
    regs_to_bytes_4 [0x1234, 0x5678] .LittleEndian = [0x78, 0x56, 0x34, 0x12] ∧
    regs_to_bytes_4 [0x1234, 0x5678] .BigEndianSwap = [0x56, 0x78, 0x12, 0x34] ∧
    regs_to_bytes_4 [0x1234, 0x5678] .LittleEndianSwap = [0x34, 0x12, 0x78, 0x56] := by
  have h := c1_regs_to_bytes_layouts 0x1234 0x5678 0x9ABC 0xDEF0
    (by decide) (by decide) (by decide) (by decide)
  exact ⟨h.1.1, h.1.2.1, h.1.2.2.1, h.1.2.2.2⟩

end VoltageModbus
